import Mathlib

/-
Verification of the capsule-network implementation in capsule_network.py
(dynamic routing between capsules).

Shallow embedding conventions:
- Tensors are modelled as curried functions over Fin-indexed axes, with
  singleton (size-1) broadcast axes dropped. Values are exact rationals.
- The exponential used by F.softmax and the square root used by squash are
  floating-point primitives; they are modelled as explicit function
  parameters (e and s below), with the properties a claim needs (positivity
  of e, correctness of s at the relevant point) taken as hypotheses.
- Fallible float operations are modelled with Option: squashOpt returns
  none exactly when the division in squash has a zero denominator, which in
  IEEE arithmetic produces a non-finite value (0/0 = NaN).
- Shape-level behaviour of the torch ops squeeze / transpose / sum(dim=-1)
  / max(dim=1) is modelled separately on lists of dimension sizes, because
  one claim is decided purely by shape evolution.
-/

/-- Squared Euclidean norm of a vector, the squared_norm of
CapsuleLayer.squash (line 46): (tensor ** 2).sum(dim). -/
def normSq {D : ℕ} (v : Fin D → ℚ) : ℚ := ∑ d, (v d) ^ 2

/-- Row-wise softmax along one axis, the essential operation of the softmax
utility (lines 13-24): the utility transposes the target axis to the back,
flattens, applies F.softmax row by row, and undoes the permutation, so each
row of length n is mapped by this function. The exponential is the
parameter e. -/
def softmax1 (e : ℚ → ℚ) {n : ℕ} (v : Fin n → ℚ) : Fin n → ℚ :=
  fun i => e (v i) / ∑ j, e (v j)

/-- CapsuleLayer.squash (lines 45-48):
scale * tensor / torch.sqrt(squared_norm) with scale =
squared_norm / (1 + squared_norm), applied along the last axis. The square
root is the parameter s. Division is the total rational division here; the
zero-denominator case is modelled faithfully by squashOpt. -/
def squash (s : ℚ → ℚ) {D : ℕ} (v : Fin D → ℚ) : Fin D → ℚ :=
  fun d => normSq v / (1 + normSq v) * v d / s (normSq v)

/-- CapsuleLayer.squash with the IEEE behaviour of the division made
explicit: when the denominator sqrt(squared_norm) is exactly zero the
result of scale * tensor / sqrt(squared_norm) is not a finite number
(0 / 0 is NaN), modelled as none. There is no guard in the source. -/
def squashOpt (s : ℚ → ℚ) {D : ℕ} (v : Fin D → ℚ) : Option (Fin D → ℚ) :=
  if s (normSq v) = 0 then none else some (squash s v)

/-- Routing-mode CapsuleLayer (num_route_nodes different from -1),
lines 28-43: M output capsules, N route nodes, P input channels, Q output
channels. route_logits and route_weights are both registered as
nn.Parameter fields in __init__ (lines 38-39); num_iterations is the
routing iteration count. -/
structure CapsuleLayer (M N P Q : ℕ) where
  route_logits : Fin M → Fin N → ℚ
  route_weights : Fin M → Fin N → Fin P → Fin Q → ℚ
  num_iterations : ℤ

/-- CapsuleLayer.__init__ for the routing mode (lines 37-39):
route_logits is created as torch.zeros(num_capsules, 1, num_route_nodes,
1, 1); the weights are whatever torch.randn produced, here an arbitrary
argument. -/
def CapsuleLayer.init (M N P Q : ℕ) (w : Fin M → Fin N → Fin P → Fin Q → ℚ)
    (T : ℤ) : CapsuleLayer M N P Q :=
  ⟨fun _ _ => 0, w, T⟩

/-- Votes (priors, line 52): x[None, :, :, None, :] @
route_weights[:, None, :, :, :], a matrix product over the input-channel
axis, giving a tensor indexed [capsule m, batch b, route node n, channel q]
(the singleton axis 3 is dropped). -/
def CapsuleLayer.priors {M N P Q : ℕ} (layer : CapsuleLayer M N P Q) {B : ℕ}
    (x : Fin B → Fin N → Fin P → ℚ) : Fin M → Fin B → Fin N → Fin Q → ℚ :=
  fun m b n q => ∑ p, x b n p * layer.route_weights m n p q

/-- The logits variable at entry of the routing loop (line 54):
logits = self.route_logits, broadcast over the batch axis. -/
def CapsuleLayer.initialLogits {M N P Q : ℕ} (B : ℕ)
    (layer : CapsuleLayer M N P Q) : Fin M → Fin B → Fin N → ℚ :=
  fun m _ n => layer.route_logits m n

/-- probs (line 56): softmax(logits, dim=2), the softmax of the logits
along the route-node axis, per (capsule, batch) pair. -/
def couplings (e : ℚ → ℚ) {M B N : ℕ} (logits : Fin M → Fin B → Fin N → ℚ) :
    Fin M → Fin B → Fin N → ℚ :=
  fun m b => softmax1 e (logits m b)

/-- The weighted vote sum (probs * priors).sum(dim=2, keepdim=True) of
line 57, before squashing. -/
def voteSum {M B N Q : ℕ} (probs : Fin M → Fin B → Fin N → ℚ)
    (priors : Fin M → Fin B → Fin N → Fin Q → ℚ) :
    Fin M → Fin B → Fin Q → ℚ :=
  fun m b q => ∑ n, probs m b n * priors m b n q

/-- delta_logits (line 60): (priors * outputs).sum(dim=-1, keepdim=True),
the per-route-node dot product of votes with the current outputs. -/
def agreement {M B N Q : ℕ} (priors : Fin M → Fin B → Fin N → Fin Q → ℚ)
    (outputs : Fin M → Fin B → Fin Q → ℚ) : Fin M → Fin B → Fin N → ℚ :=
  fun m b n => ∑ q, priors m b n q * outputs m b q

/-- The outputs assignment of one loop body (line 57):
outputs = squash((probs * priors).sum(dim=2, keepdim=True)). -/
def stepOutput (e s : ℚ → ℚ) {M B N Q : ℕ}
    (priors : Fin M → Fin B → Fin N → Fin Q → ℚ)
    (logits : Fin M → Fin B → Fin N → ℚ) : Fin M → Fin B → Fin Q → ℚ :=
  fun m b => squash s (fun q => voteSum (couplings e logits) priors m b q)

/-- The loop for i in range(self.num_iterations) of lines 55-61. The fuel
argument counts the remaining iterations, i is the loop index, and the
Option argument models the Python local variable outputs, which is unbound
(none) until the first assignment; if the loop body never runs, the final
read of outputs fails, i.e. stays none. The logits update is skipped on
the final iteration (line 59). -/
def routingGo (e s : ℚ → ℚ) {M B N Q : ℕ} (T : ℕ)
    (priors : Fin M → Fin B → Fin N → Fin Q → ℚ) :
    ℕ → ℕ → (Fin M → Fin B → Fin N → ℚ) →
      Option (Fin M → Fin B → Fin Q → ℚ) → Option (Fin M → Fin B → Fin Q → ℚ)
  | 0, _, _, acc => acc
  | fuel + 1, i, logits, _ =>
      routingGo e s T priors fuel (i + 1)
        (if i = T - 1 then logits
         else fun m b n => logits m b n + agreement priors (stepOutput e s priors logits) m b n)
        (some (stepOutput e s priors logits))

/-- CapsuleLayer.forward, routing branch (lines 50-61, 67): compute the
priors, start from logits = self.route_logits, run the iteration loop and
return outputs. A negative num_iterations runs the loop zero times, as
range does in Python. -/
def CapsuleLayer.forward (e s : ℚ → ℚ) {M N P Q B : ℕ}
    (layer : CapsuleLayer M N P Q) (x : Fin B → Fin N → Fin P → ℚ) :
    Option (Fin M → Fin B → Fin Q → ℚ) :=
  routingGo e s layer.num_iterations.toNat (layer.priors x)
    layer.num_iterations.toNat 0 (CapsuleLayer.initialLogits B layer) none

/-- Routing logits of the specification recursion, following the words of
spec section 4.4 step 3: on every iteration the coupling coefficients are
the softmax of the current logits along the route-node axis, the output is
the squash of the coupling-weighted vote sum, and the logits of the next
iteration are the current logits plus the per-node dot product of votes
with the current output (cumulative update). -/
def specLogits (e s : ℚ → ℚ) {M B N Q : ℕ}
    (priors : Fin M → Fin B → Fin N → Fin Q → ℚ)
    (L0 : Fin M → Fin B → Fin N → ℚ) : ℕ → Fin M → Fin B → Fin N → ℚ
  | 0 => L0
  | t + 1 => fun m b n =>
      specLogits e s priors L0 t m b n
        + ∑ q, priors m b n q *
            squash s (fun r => ∑ n2,
              softmax1 e (specLogits e s priors L0 t m b) n2 * priors m b n2 r) q

/-- Output of iteration t of the specification recursion (spec section 4.4
steps 3a-3c): squash of the softmax-weighted sum of the votes over the
route nodes, using the logits of iteration t. -/
def specOutput (e s : ℚ → ℚ) {M B N Q : ℕ}
    (priors : Fin M → Fin B → Fin N → Fin Q → ℚ)
    (L0 : Fin M → Fin B → Fin N → ℚ) (t : ℕ) : Fin M → Fin B → Fin Q → ℚ :=
  fun m b => squash s (fun q => ∑ n,
    softmax1 e (specLogits e s priors L0 t m b) n * priors m b n q)

/-- Index of a maximal entry, the index returned by classes.max(dim=1) for
one row (line 97). Ties are broken deterministically; the theorems use
only that the returned index attains the maximum. -/
def maxIndex {K : ℕ} (v : Fin (K + 1) → ℚ) : Fin (K + 1) :=
  ((List.finRange (K + 1)).argmax v).getD 0

/-- max_length_indices.data[0] (lines 97-98): the argmax index of the
class activations of the first batch element. -/
def maskIndex {B K : ℕ} (classes : Fin (B + 1) → Fin (K + 1) → ℚ) :
    Fin (K + 1) :=
  maxIndex (classes 0)

/-- The tensor fed to the decoder (line 98): x[:, max_length_indices.data[0], :],
the same capsule index for every batch element. -/
def decoderInput {B K Q : ℕ} (x : Fin (B + 1) → Fin (K + 1) → Fin Q → ℚ)
    (classes : Fin (B + 1) → Fin (K + 1) → ℚ) : Fin (B + 1) → Fin Q → ℚ :=
  fun b q => x b (maskIndex classes) q

/-- Shape semantics of torch.Tensor.squeeze() with no argument: every axis
of size 1 is removed. -/
def squeezeShape (sh : List ℕ) : List ℕ := sh.filter (fun d => d ≠ 1)

/-- Shape semantics of transpose(0, 1): the first two axes are swapped. -/
def transposeShape01 : List ℕ → List ℕ
  | a :: b :: t => b :: a :: t
  | sh => sh

/-- Shape semantics of .sum(dim=-1) without keepdim (line 93): the last
axis is removed. -/
def sumLastShape (sh : List ℕ) : List ℕ := sh.dropLast

/-- Shape of the digit-capsule output for batch size B: the routing layer
returns [num_capsules, batch, 1, 1, out_channels] = [10, B, 1, 1, 16]
(line 91, for the fixed topology of CapsuleNet). -/
def digitCapsOutShape (B : ℕ) : List ℕ := [10, B, 1, 1, 16]

/-- Shape of the classes tensor in CapsuleNet.forward (lines 91-93):
digit-capsule output, then squeeze(), then transpose(0, 1), then squared
sum over the last axis (the elementwise power 0.5 keeps the shape). -/
def classesShape (B : ℕ) : List ℕ :=
  sumLastShape (transposeShape01 (squeezeShape (digitCapsOutShape B)))

/-- Validity of tensor.max(dim=d) for a nonnegative dim on a tensor of the
given shape: torch requires dim to be smaller than the number of axes,
otherwise the call raises a dimension-out-of-range error. -/
def maxDimValid (dim : ℕ) (sh : List ℕ) : Bool := dim < sh.length

/-- Margin-loss term of one class (lines 109-112): with l the label entry
and a the class activation, l * clamp(0.9 - a, min=0) ** 2
+ 0.5 * (1 - l) * clamp(a - 0.1, min=0) ** 2. -/
def marginTermOf (l a : ℚ) : ℚ :=
  l * max (0.9 - a) 0 ^ 2 + 0.5 * (1 - l) * max (a - 0.1) 0 ^ 2

/-- Margin loss of CapsuleLoss.forward (lines 109-113): the per-class terms
are summed over the class axis and averaged over the batch
(margin_loss.sum(dim=1).mean()). -/
def CapsuleLoss.marginLoss {B K : ℕ} (labels classes : Fin B → Fin K → ℚ) : ℚ :=
  (∑ b, ∑ k, marginTermOf (labels b k) (classes b k)) / (B : ℚ)

/-- nn.MSELoss(size_average=True) (lines 106, 115): mean of the squared
differences over all elements. The image batch is flattened to the same
[batch, pixels] layout as the reconstruction, as the legacy MSELoss does
when the element counts agree. -/
def mseLoss {B P : ℕ} (input target : Fin B → Fin P → ℚ) : ℚ :=
  (∑ b, ∑ p, (input b p - target b p) ^ 2) / ((B : ℚ) * (P : ℚ))

/-- CapsuleLoss.forward (lines 108-116): margin loss plus 0.0005 times the
reconstruction loss, with the reconstruction loss the MSE of
(reconstructions, images). -/
def CapsuleLoss.forward {B K P : ℕ} (images : Fin B → Fin P → ℚ)
    (labels classes : Fin B → Fin K → ℚ)
    (reconstructions : Fin B → Fin P → ℚ) : ℚ :=
  CapsuleLoss.marginLoss labels classes
    + 0.0005 * mseLoss reconstructions images

/-- Per-class margin-loss formula in the words of spec section 4.6:
label_c * max(0, 0.9 - activation_c) ^ 2
+ 0.5 * (1 - label_c) * max(0, activation_c - 0.1) ^ 2. -/
def specMarginTerm (label activation : ℚ) : ℚ :=
  label * max 0 (0.9 - activation) ^ 2
    + 0.5 * (1 - label) * max 0 (activation - 0.1) ^ 2

/-- CapsuleLoss in the words of spec section 4.6: the margin terms summed
over classes and averaged over the batch, plus 0.0005 times the mean
squared error between reconstruction and image. -/
def specCapsuleLoss {B K P : ℕ} (images : Fin B → Fin P → ℚ)
    (labels classes : Fin B → Fin K → ℚ)
    (reconstructions : Fin B → Fin P → ℚ) : ℚ :=
  (∑ b, ∑ k, specMarginTerm (labels b k) (classes b k)) / (B : ℚ)
    + 0.0005 *
      ((∑ b, ∑ p, (reconstructions b p - images b p) ^ 2) / ((B : ℚ) * (P : ℚ)))

/-- One-hot label tensor: entry (b, k) is 1 when k is the class of batch
element b, else 0. -/
def onehot {B K : ℕ} (y : Fin B → Fin K) : Fin B → Fin K → ℚ :=
  fun b k => if k = y b then 1 else 0

/-- The returned index of maxIndex attains the maximum of the row. -/
lemma le_maxIndex {K : ℕ} (v : Fin (K + 1) → ℚ) (j : Fin (K + 1)) :
    v j ≤ v (maxIndex v) := by
  unfold maxIndex
  cases h : (List.finRange (K + 1)).argmax v with
  | none =>
      rw [List.argmax_eq_none] at h
      have hj : j ∈ List.finRange (K + 1) := List.mem_finRange j
      rw [h] at hj
      cases hj
  | some m =>
      have hm : v j ≤ v m :=
        List.le_of_mem_argmax (List.mem_finRange j) (Option.mem_def.mpr h)
      simpa using hm

/-- The loop of lines 55-61 always leaves outputs assigned when it runs at
least once. -/
lemma routingGo_isSome (e s : ℚ → ℚ) {M B N Q : ℕ} (T : ℕ)
    (priors : Fin M → Fin B → Fin N → Fin Q → ℚ) :
    ∀ fuel i logits acc, 1 ≤ fuel →
      (routingGo e s T priors fuel i logits acc).isSome := by
  intro fuel
  induction fuel with
  | zero => intro i logits acc h; exact absurd h (by omega)
  | succ f ih =>
      intro i logits acc _
      rw [routingGo]
      rcases Nat.eq_zero_or_pos f with hf | hf
      · subst hf
        rw [routingGo]
        rfl
      · exact ih _ _ _ hf

/-- Refinement of the loop of lines 55-61 by the specification recursion:
starting iteration i with the logits of the specification recursion at i,
the loop returns the specification output of the final iteration. -/
lemma routingGo_eq_specOutput (e s : ℚ → ℚ) {M B N Q : ℕ} (T : ℕ)
    (priors : Fin M → Fin B → Fin N → Fin Q → ℚ)
    (L0 : Fin M → Fin B → Fin N → ℚ) :
    ∀ fuel i acc, 1 ≤ fuel → i + fuel = T →
      routingGo e s T priors fuel i (specLogits e s priors L0 i) acc
        = some (specOutput e s priors L0 (T - 1)) := by
  intro fuel
  induction fuel with
  | zero => intro i acc h; exact absurd h (by omega)
  | succ f ih =>
      intro i acc _ hiT
      rw [routingGo]
      rcases Nat.eq_zero_or_pos f with hf | hf
      · subst hf
        have hi : i = T - 1 := by omega
        rw [if_pos hi, routingGo, hi]
        rfl
      · have hi : i ≠ T - 1 := by omega
        rw [if_neg hi]
        have hstep :
            (fun m b n => specLogits e s priors L0 i m b n
              + agreement priors (stepOutput e s priors (specLogits e s priors L0 i)) m b n)
              = specLogits e s priors L0 (i + 1) := by
          funext m b n
          rfl
        rw [hstep]
        exact ih (i + 1) _ hf (by omega)

/-- Claim C1 counterexample layer: a routing-mode layer whose stored
route_logits parameter is 1 everywhere, the state reached after the
external optimizer has updated the nn.Parameter route_logits. -/
def layerC1ex : CapsuleLayer 1 1 1 1 := ⟨fun _ _ => 1, fun _ _ _ _ => 0, 3⟩

/-- Claim C1, counterexample: the claim states that the routing logits used
in the first iteration of every forward call are zero. The logits used in
the first iteration are the stored route_logits parameter (line 54), which
is an nn.Parameter updated by the external optimizer; for the concrete
layer layerC1ex they are 1, not 0. -/
theorem c1_first_iteration_logits_counterexample :
    CapsuleLayer.initialLogits 1 layerC1ex ≠ fun _ _ _ => 0 := by
  intro h
  have h0 := congrFun (congrFun (congrFun h 0) 0) 0
  norm_num [CapsuleLayer.initialLogits, layerC1ex] at h0

/-- Claim C1, amended: route_logits is initialized to zero at construction
(line 38), and the logits used in the first iteration of a forward call are
exactly the stored route_logits parameter (line 54) broadcast over the
batch, not a per-call zero reset; the parameter is learned, so after
external updates the first-iteration logits need not be zero. -/
theorem c1_initial_logits_are_stored_parameter :
    (∀ (M N P Q : ℕ) (w : Fin M → Fin N → Fin P → Fin Q → ℚ) (T : ℤ),
        (CapsuleLayer.init M N P Q w T).route_logits = fun _ _ => (0 : ℚ))
    ∧ (∀ (M N P Q B : ℕ) (layer : CapsuleLayer M N P Q),
        CapsuleLayer.initialLogits B layer = fun m _ n => layer.route_logits m n) :=
  ⟨fun _ _ _ _ _ _ => rfl, fun _ _ _ _ _ _ => rfl⟩

/-- Claim C2: with batch size 1, squeeze() in CapsuleNet.forward (line 91)
also removes the batch axis, transpose(0, 1) then swaps the capsule and
feature axes, so the classes tensor has shape [16] instead of [1, 10], and
classes.max(dim=1) (line 97) is a dimension-out-of-range error; with batch
size 2 the classes shape is [2, 10] as the specification expects. -/
theorem c2_batch_size_one_shape_failure :
    classesShape 1 = [16] ∧ maxDimValid 1 (classesShape 1) = false
      ∧ classesShape 2 = [2, 10] ∧ maxDimValid 1 (classesShape 2) = true := by
  decide

/-- Claim C3: squash applied to the zero vector. The squared norm is 0, the
square root of 0 is 0, and the division scale * tensor / 0 is the IEEE
indeterminate 0 / 0: the source has no guard, so the result is not the
zero vector but NaN (none in the Option model). -/
theorem c3_squash_zero_vector_unguarded (s : ℚ → ℚ) (D : ℕ) (hs : s 0 = 0) :
    squashOpt s (fun _ : Fin D => (0 : ℚ)) = none := by
  have h0 : normSq (fun _ : Fin D => (0 : ℚ)) = 0 := by simp [normSq]
  simp [squashOpt, h0, hs]

/-- Claim C3 witness: with the square root function behaving correctly at 0
(the identity does), squash of the zero 8-dimensional capsule vector is
non-finite. -/
theorem c3_witness :
    squashOpt (fun x => x) (fun _ : Fin 8 => (0 : ℚ)) = none :=
  c3_squash_zero_vector_unguarded (fun x => x) 8 rfl

/-- Claim C4: in the masking step of CapsuleNet.forward (lines 96-98) there
is one single capsule index, used for every batch element of the decoder
input, and it attains the maximum of the class activations of the first
batch element. -/
theorem c4_masking_uses_first_element_argmax (B K Q : ℕ)
    (x : Fin (B + 1) → Fin (K + 1) → Fin Q → ℚ)
    (classes : Fin (B + 1) → Fin (K + 1) → ℚ) :
    ∃ i : Fin (K + 1),
      (∀ b q, decoderInput x classes b q = x b i q)
        ∧ ∀ j, classes 0 j ≤ classes 0 i :=
  ⟨maskIndex classes, fun _ _ => rfl, fun j => le_maxIndex (classes 0) j⟩

/-- Claim C5: for a routing iteration count of at least 1, the loop of
lines 55-61 returns exactly the output of the specification recursion at
the final iteration: every iteration takes the softmax of the current
logits along the route-node axis, squashes the coupling-weighted vote sum,
and the logits are updated cumulatively with the vote-output agreement on
every non-final iteration. -/
theorem c5_routing_iteration_structure (e s : ℚ → ℚ) {M N P Q B : ℕ}
    (layer : CapsuleLayer M N P Q) (x : Fin B → Fin N → Fin P → ℚ)
    (hT : 1 ≤ layer.num_iterations) :
    layer.forward e s x
      = some (specOutput e s (layer.priors x) (CapsuleLayer.initialLogits B layer)
          (layer.num_iterations.toNat - 1)) := by
  unfold CapsuleLayer.forward
  have h1 : 1 ≤ layer.num_iterations.toNat := by omega
  exact routingGo_eq_specOutput e s layer.num_iterations.toNat (layer.priors x)
    (CapsuleLayer.initialLogits B layer) layer.num_iterations.toNat 0 none h1 (by omega)

/-- Concrete layer for the claim C5 witness: one capsule, one route node,
weight 1, zero logits, two routing iterations. -/
def layerC5w : CapsuleLayer 1 1 1 1 := ⟨fun _ _ => 0, fun _ _ _ _ => 1, 2⟩

/-- Concrete all-ones input batch used by the witnesses: one batch element,
one route node, one input channel. -/
def xOnes : Fin 1 → Fin 1 → Fin 1 → ℚ := fun _ _ _ => 1

/-- Claim C5 witness: the refinement theorem applied to the concrete
two-iteration layer layerC5w. -/
theorem c5_witness :
    CapsuleLayer.forward (fun _ => 1) (fun x => x) layerC5w xOnes
      = some (specOutput (fun _ => 1) (fun x => x) (layerC5w.priors xOnes)
          (CapsuleLayer.initialLogits 1 layerC5w) 1) :=
  c5_routing_iteration_structure (fun _ => 1) (fun x => x) layerC5w
    xOnes (by decide)

/-- Claim C6: CapsuleLoss.forward computes exactly the loss formula of the
specification: margin loss (per-class hinge terms summed over classes and
averaged over the batch) plus 0.0005 times the mean squared error between
reconstruction and image. -/
theorem c6_loss_equals_spec_formula (B K P : ℕ) (images : Fin B → Fin P → ℚ)
    (labels classes : Fin B → Fin K → ℚ)
    (reconstructions : Fin B → Fin P → ℚ) :
    CapsuleLoss.forward images labels classes reconstructions
      = specCapsuleLoss images labels classes reconstructions := by
  unfold CapsuleLoss.forward specCapsuleLoss CapsuleLoss.marginLoss mseLoss
  have h : ∀ b k, marginTermOf (labels b k) (classes b k)
      = specMarginTerm (labels b k) (classes b k) := by
    intro b k
    unfold marginTermOf specMarginTerm
    rw [max_comm (0.9 - classes b k) 0, max_comm (classes b k - 0.1) 0]
  simp only [h]

/-- Claim C8: with a single routing iteration and the zero stored logits of
a freshly constructed layer, the forward call returns the squash of the
uniform average of the votes over the route nodes, because the softmax of
the constant zero row is the uniform distribution. -/
theorem c8_single_iteration_is_uniform_average (e s : ℚ → ℚ) {M N P Q B : ℕ}
    (layer : CapsuleLayer M N P Q) (x : Fin B → Fin N → Fin P → ℚ)
    (hT : layer.num_iterations = 1)
    (hL : ∀ m n, layer.route_logits m n = 0) (he : 0 < e 0) :
    layer.forward e s x
      = some (fun m b => squash s (fun q => (∑ n, layer.priors x m b n q) / (N : ℚ))) := by
  unfold CapsuleLayer.forward
  rw [hT]
  show routingGo e s 1 (layer.priors x) 1 0 (CapsuleLayer.initialLogits B layer) none = _
  rw [routingGo, if_pos (show (0 : ℕ) = 1 - 1 from rfl), routingGo]
  congr 1
  funext m b
  have hv : (fun q => voteSum (couplings e (CapsuleLayer.initialLogits B layer))
        (layer.priors x) m b q)
      = fun q => (∑ n, layer.priors x m b n q) / (N : ℚ) := by
    funext q
    unfold voteSum couplings softmax1 CapsuleLayer.initialLogits
    simp only [hL]
    rw [Finset.sum_const, Finset.card_univ, Fintype.card_fin, nsmul_eq_mul,
      Finset.sum_div]
    apply Finset.sum_congr rfl
    intro n _
    rw [mul_comm ((N : ℚ)) (e 0), ← div_div, div_self he.ne', one_div,
      inv_mul_eq_div]
  show squash s (fun q => voteSum (couplings e (CapsuleLayer.initialLogits B layer))
      (layer.priors x) m b q) = _
  rw [hv]

/-- Concrete layer for the claim C8 witness: one capsule, one route node,
weight 1, zero logits, one routing iteration. -/
def layerC8w : CapsuleLayer 1 1 1 1 := ⟨fun _ _ => 0, fun _ _ _ _ => 1, 1⟩

/-- Claim C8 witness: the uniform-coupling theorem applied to the concrete
single-iteration layer layerC8w. -/
theorem c8_witness :
    CapsuleLayer.forward (fun _ => 1) (fun x => x) layerC8w xOnes
      = some (fun m b => squash (fun x => x)
          (fun q => (∑ n, layerC8w.priors xOnes m b n q) / ((1 : ℕ) : ℚ))) :=
  c8_single_iteration_is_uniform_average (fun _ => 1) (fun x => x) layerC8w
    xOnes rfl (fun _ _ => rfl) zero_lt_one

/-- Claim C10: the routing branch of CapsuleLayer.forward produces an
output exactly when num_iterations is at least 1; with num_iterations at
most 0 the loop body never runs, the local variable outputs is never
assigned, and the forward call fails (none). -/
theorem c10_forward_fails_without_iterations (e s : ℚ → ℚ)
    (M N P Q B : ℕ) (layer : CapsuleLayer M N P Q)
    (x : Fin B → Fin N → Fin P → ℚ) :
    layer.forward e s x = none ↔ layer.num_iterations ≤ 0 := by
  unfold CapsuleLayer.forward
  constructor
  · intro h
    by_contra hT
    have h1 : 1 ≤ layer.num_iterations.toNat := by omega
    have h2 := routingGo_isSome e s layer.num_iterations.toNat (layer.priors x)
      layer.num_iterations.toNat 0 (CapsuleLayer.initialLogits B layer) none h1
    rw [h] at h2
    simp at h2
  · intro h
    have h0 : layer.num_iterations.toNat = 0 := by omega
    rw [h0, routingGo]

/-- Claim C7: for a nonzero input vector, with the square-root parameter
correct and nonnegative at the squared norm, squash returns a nonnegative
scalar multiple of the input whose squared norm is the square of
normSq v / (1 + normSq v) — that is, the norm equals the squared norm
divided by one plus the squared norm — and which is strictly shorter
than 1. -/
theorem c7_squash_direction_and_norm {D : ℕ} (s : ℚ → ℚ) (v : Fin D → ℚ)
    (hv : v ≠ 0) (hs : s (normSq v) ^ 2 = normSq v)
    (hs0 : 0 ≤ s (normSq v)) :
    ∃ c : ℚ, 0 ≤ c ∧ (∀ d, squash s v d = c * v d)
      ∧ normSq (squash s v) = (normSq v / (1 + normSq v)) ^ 2
      ∧ normSq (squash s v) < 1 := by
  have hsn : 0 < normSq v := by
    have hex : ∃ d, v d ≠ 0 := by
      by_contra hc
      push_neg at hc
      exact hv (funext fun d => hc d)
    obtain ⟨d, hd⟩ := hex
    calc (0 : ℚ) < (v d) ^ 2 := pow_two_pos_of_ne_zero hd
      _ ≤ ∑ i, (v i) ^ 2 :=
        Finset.single_le_sum (fun i _ => sq_nonneg (v i)) (Finset.mem_univ d)
  have hsd : 0 < s (normSq v) := by
    rcases eq_or_lt_of_le hs0 with h | h
    · exfalso
      have h2 : (0 : ℚ) = normSq v := by
        rw [← hs, ← h]
        norm_num
      linarith
    · exact h
  have h1sn : (0 : ℚ) < 1 + normSq v := by linarith
  refine ⟨normSq v / (1 + normSq v) / s (normSq v), ?_, ?_, ?_, ?_⟩
  · positivity
  · intro d
    unfold squash
    rw [mul_div_right_comm]
  · have hsum : normSq (squash s v)
        = (normSq v / (1 + normSq v) / s (normSq v)) ^ 2 * normSq v := by
      unfold normSq squash
      calc ∑ d, (normSq v / (1 + normSq v) * v d / s (normSq v)) ^ 2
          = ∑ d, (normSq v / (1 + normSq v) / s (normSq v)) ^ 2 * (v d) ^ 2 :=
            Finset.sum_congr rfl (fun d _ => by ring)
        _ = (normSq v / (1 + normSq v) / s (normSq v)) ^ 2 * ∑ d, (v d) ^ 2 :=
            (Finset.mul_sum _ _ _).symm
        _ = _ := rfl
    rw [hsum, div_pow, hs, div_mul_cancel₀ _ hsn.ne']
  · have hsum : normSq (squash s v)
        = (normSq v / (1 + normSq v) / s (normSq v)) ^ 2 * normSq v := by
      unfold normSq squash
      calc ∑ d, (normSq v / (1 + normSq v) * v d / s (normSq v)) ^ 2
          = ∑ d, (normSq v / (1 + normSq v) / s (normSq v)) ^ 2 * (v d) ^ 2 :=
            Finset.sum_congr rfl (fun d _ => by ring)
        _ = (normSq v / (1 + normSq v) / s (normSq v)) ^ 2 * ∑ d, (v d) ^ 2 :=
            (Finset.mul_sum _ _ _).symm
        _ = _ := rfl
    rw [hsum, div_pow, hs, div_mul_cancel₀ _ hsn.ne']
    have hx0 : (0 : ℚ) ≤ normSq v / (1 + normSq v) := by positivity
    have hx1 : normSq v / (1 + normSq v) < 1 := (div_lt_one h1sn).mpr (by linarith)
    exact pow_lt_one₀ hx0 hx1 two_ne_zero

/-- Claim C7 witness: the direction-and-norm theorem applied to the vector
(3, 4), whose squared norm 25 has exact rational square root 5. -/
theorem c7_witness :
    ∃ c : ℚ, 0 ≤ c
      ∧ (∀ d, squash (fun _ => 5) ![(3 : ℚ), 4] d = c * (![(3 : ℚ), 4]) d)
      ∧ normSq (squash (fun _ => 5) ![(3 : ℚ), 4])
          = (normSq ![(3 : ℚ), 4] / (1 + normSq ![(3 : ℚ), 4])) ^ 2
      ∧ normSq (squash (fun _ => 5) ![(3 : ℚ), 4]) < 1 :=
  c7_squash_direction_and_norm (fun _ => 5) ![(3 : ℚ), 4]
    (by
      intro h
      have h0 := congrFun h 0
      norm_num [Matrix.cons_val_zero] at h0)
    (by norm_num [normSq, Fin.sum_univ_succ])
    (by norm_num)

/-- Claim C9, counterexample: the margin-loss term of the true class is not
strictly increased by moving the activation away from the ideal value 1:
at activation 0.95 the term is still exactly 0, because the hinge
clamp(0.9 - a, min=0) is already 0 for every activation above 0.9. -/
theorem c9_strict_increase_counterexample :
    marginTermOf 1 (0.95) = 0 ∧ marginTermOf 1 1 = 0
      ∧ ¬ marginTermOf 1 1 < marginTermOf 1 (0.95) := by
  norm_num [marginTermOf, max_def]

/-- Claim C9, amended: at the ideal one-hot boundary values the margin loss
is exactly 0; each margin term strictly increases as the activation moves
away from the ideal value beyond the margin threshold (below 0.9 for the
true class, above 0.1 for a wrong class) and is constantly 0 inside the
threshold region. -/
theorem c9_margin_ideal_zero_and_strict_outside_margin :
    (∀ (B K : ℕ) (y : Fin B → Fin K),
        CapsuleLoss.marginLoss (onehot y) (onehot y) = 0)
    ∧ (∀ a b : ℚ, a < b → b ≤ 0.9 → marginTermOf 1 b < marginTermOf 1 a)
    ∧ (∀ a b : ℚ, 0.1 ≤ a → a < b → marginTermOf 0 a < marginTermOf 0 b)
    ∧ (∀ a : ℚ, 0.9 ≤ a → marginTermOf 1 a = 0)
    ∧ (∀ a : ℚ, a ≤ 0.1 → marginTermOf 0 a = 0) := by
  refine ⟨?_, ?_, ?_, ?_, ?_⟩
  · intro B K y
    unfold CapsuleLoss.marginLoss
    rw [Finset.sum_eq_zero, zero_div]
    intro b _
    rw [Finset.sum_eq_zero]
    intro k _
    unfold onehot marginTermOf
    by_cases h : k = y b
    · rw [if_pos h]
      norm_num [max_def]
    · rw [if_neg h]
      norm_num [max_def]
  · intro a b hab hb
    unfold marginTermOf
    rw [max_eq_left (by linarith : (0 : ℚ) ≤ 0.9 - b),
      max_eq_left (by linarith : (0 : ℚ) ≤ 0.9 - a)]
    have hlt : (0.9 - b) ^ 2 < (0.9 - a) ^ 2 :=
      pow_lt_pow_left₀ (by linarith) (by linarith) two_ne_zero
    nlinarith [sq_nonneg (max (b - 0.1) 0), sq_nonneg (max (a - 0.1) 0)]
  · intro a b ha hab
    unfold marginTermOf
    rw [max_eq_left (by linarith : (0 : ℚ) ≤ a - 0.1),
      max_eq_left (by linarith : (0 : ℚ) ≤ b - 0.1)]
    have hlt : (a - 0.1) ^ 2 < (b - 0.1) ^ 2 :=
      pow_lt_pow_left₀ (by linarith) (by linarith) two_ne_zero
    nlinarith [sq_nonneg (max (0.9 - a) 0), sq_nonneg (max (0.9 - b) 0)]
  · intro a ha
    unfold marginTermOf
    rw [max_eq_right (by linarith : 0.9 - a ≤ (0 : ℚ))]
    norm_num
  · intro a ha
    unfold marginTermOf
    rw [max_eq_right (by linarith : a - 0.1 ≤ (0 : ℚ))]
    norm_num

/-- Claim C9 witness: the amended margin-loss theorem applied at concrete
activations: ideal one-hot batch of one element and one class, true-class
activations 0.7 and 0.8 below the 0.9 margin, wrong-class activations 0.2
and 0.3 above the 0.1 margin, and flat points 0.95 and 0.05. -/
theorem c9_witness :
    CapsuleLoss.marginLoss (onehot (fun _ : Fin 1 => (0 : Fin 1)))
        (onehot (fun _ : Fin 1 => (0 : Fin 1))) = 0
      ∧ marginTermOf 1 (0.8) < marginTermOf 1 (0.7)
      ∧ marginTermOf 0 (0.2) < marginTermOf 0 (0.3)
      ∧ marginTermOf 1 (0.95) = 0
      ∧ marginTermOf 0 (0.05) = 0 :=
  ⟨c9_margin_ideal_zero_and_strict_outside_margin.1 1 1 (fun _ => 0),
    c9_margin_ideal_zero_and_strict_outside_margin.2.1 (0.7) (0.8)
      (by norm_num) (by norm_num),
    c9_margin_ideal_zero_and_strict_outside_margin.2.2.1 (0.2) (0.3)
      (by norm_num) (by norm_num),
    c9_margin_ideal_zero_and_strict_outside_margin.2.2.2.1 (0.95) (by norm_num),
    c9_margin_ideal_zero_and_strict_outside_margin.2.2.2.2 (0.05) (by norm_num)⟩
